import Mathlib

/-!
# Maintenance handlers of the configstore API

A shallow embedding of `internal/services/configstore/api/maintenance.go`.

Go values are modelled as follows.

* An `error` is `Option Error`, `none` being `nil`.
* A pointer result such as `*MaintenanceStatusResponse` is an `Option`.
* The action handler `*action.ActionHandler` is a record of transition
  functions over an arbitrary store type: every method takes the store and
  returns the store it leaves behind together with its Go results.
* The effects of a handler are made explicit in a `World`: the store, the
  ordered list of calls made on the action handler and on package `util`,
  and the list of errors sent to the logger.
* A call either returns or panics (`Outcome`).
-/

namespace Agola

/-! ## Go values -/

/-- Go error values. `withStack` is the wrapper added by `errors.WithStack`. -/
inductive Error where
  | mk (msg : String)
  | withStack (e : Error)
  deriving DecidableEq, Repr

/-- The sentinel `http.ErrAbortHandler`. -/
def ErrAbortHandler : Error := Error.mk "net/http: abort Handler"

/-- The request context; `cancelled` holds when `ctx.Err()` is not nil. -/
structure Context where
  cancelled : Bool
  deriving DecidableEq, Repr

/-- The fields of `*http.Request` the handlers read. -/
structure Request where
  Method : String
  ctx : Context
  Body : List String
  deriving DecidableEq, Repr

/-- Method `r.Context()`. -/
def Request.Context (r : Request) : Context := r.ctx

/-- What has been written on an `http.ResponseWriter` so far. -/
structure ResponseWriter where
  status : Option Nat
  body : List String
  deriving DecidableEq, Repr

/-- The type `csapitypes.MaintenanceStatusResponse`. -/
structure MaintenanceStatusResponse where
  RequestedStatus : Bool
  CurrentStatus : Bool
  deriving DecidableEq, Repr

/-- The value `zerolog.Logger` held by a handler. -/
structure Logger where
  name : String
  deriving DecidableEq, Repr

/-- The constant `http.StatusOK`. -/
def StatusOK : Nat := 200

/-- A call either returns a value or panics with an error value. -/
inductive Outcome (α : Type) where
  | returned (a : α)
  | panicked (v : Error)
  deriving DecidableEq, Repr

/-! ## Collaborators outside this file -/

/-- The methods of `*action.ActionHandler` used by the handlers. Each takes
the store and returns the new store with the Go results. -/
structure ActionHandler (σ : Type) where
  IsMaintenanceEnabled : σ → Context → σ × Bool × Option Error
  SetMaintenanceEnabled : σ → Context → Bool → σ × Option Error
  Export : σ → Context → ResponseWriter → σ × ResponseWriter × Option Error
  Import : σ → Context → List String → σ × Option Error

/-- The functions of package `util` used by the handlers. -/
structure Util where
  HTTPError : ResponseWriter → Option Error → ResponseWriter × Bool
  HTTPResponse : ResponseWriter → Nat → Option MaintenanceStatusResponse →
    ResponseWriter × Option Error

/-- One call made by a handler on a collaborator. -/
inductive Call where
  | IsMaintenanceEnabled
  | SetMaintenanceEnabled (enable : Bool)
  | Export
  | Import (body : List String)
  | HTTPError (err : Option Error)
  | HTTPResponse (code : Nat) (res : Option MaintenanceStatusResponse)
  deriving DecidableEq, Repr

/-- The state outside the handlers: the store behind the action handler, the
calls made so far (oldest first) and the errors sent to the logger. -/
structure World (σ : Type) where
  store : σ
  calls : List Call
  logged : List Error

/-- Statement `h.log.Err(err).Send()`. -/
def World.logErr {σ : Type} (wd : World σ) (err : Option Error) : World σ :=
  match err with
  | some e => { wd with logged := wd.logged ++ [e] }
  | none => wd

/-- Record a call in the world. -/
def World.record {σ : Type} (wd : World σ) (c : Call) : World σ :=
  { wd with calls := wd.calls ++ [c] }

/-! ## MaintenanceStatusHandler -/

/-- The struct `MaintenanceStatusHandler`. -/
structure MaintenanceStatusHandler (σ : Type) where
  log : Logger
  ah : ActionHandler σ
  currentMaintenanceMode : Bool

/-- Constructor `NewMaintenanceStatusHandler`. -/
def NewMaintenanceStatusHandler {σ : Type} (log : Logger) (ah : ActionHandler σ)
    (currentMaintenanceMode : Bool) : MaintenanceStatusHandler σ :=
  { log := log, ah := ah, currentMaintenanceMode := currentMaintenanceMode }

/-- Method `MaintenanceStatusHandler.do`. -/
def MaintenanceStatusHandler.do_ {σ : Type} (h : MaintenanceStatusHandler σ) (r : Request)
    (wd : World σ) : World σ × Option MaintenanceStatusResponse × Option Error :=
  let ctx := r.Context
  let out := h.ah.IsMaintenanceEnabled wd.store ctx
  let wd1 := ({ wd with store := out.1 } : World σ).record Call.IsMaintenanceEnabled
  let requestedStatus := out.2.1
  match out.2.2 with
  | some err => (wd1, none, some (Error.withStack err))
  | none =>
    let res : MaintenanceStatusResponse :=
      { RequestedStatus := requestedStatus, CurrentStatus := h.currentMaintenanceMode }
    (wd1, some res, none)

/-- Method `MaintenanceStatusHandler.ServeHTTP`. The response pointer goes to
`util.HTTPResponse` as `do` returned it. -/
def MaintenanceStatusHandler.ServeHTTP {σ : Type} (u : Util) (h : MaintenanceStatusHandler σ)
    (w : ResponseWriter) (r : Request) (wd : World σ) : World σ × ResponseWriter :=
  let out := h.do_ r wd
  let res := out.2.1
  let err := out.2.2
  let he := u.HTTPError w err
  let wd1 := out.1.record (Call.HTTPError err)
  if he.2 then
    (wd1.logErr err, he.1)
  else
    let hr := u.HTTPResponse he.1 StatusOK res
    let wd2 := wd1.record (Call.HTTPResponse StatusOK res)
    (wd2.logErr hr.2, hr.1)

/-! ## MaintenanceModeHandler -/

/-- The struct `MaintenanceModeHandler`. -/
structure MaintenanceModeHandler (σ : Type) where
  log : Logger
  ah : ActionHandler σ

/-- Constructor `NewMaintenanceModeHandler`. -/
def NewMaintenanceModeHandler {σ : Type} (log : Logger) (ah : ActionHandler σ) :
    MaintenanceModeHandler σ :=
  { log := log, ah := ah }

/-- The `switch r.Method` of `MaintenanceModeHandler.do`: the value of
`enable` when the switch is left. -/
def MaintenanceModeHandler.enableOf (method : String) : Bool :=
  let enable := false
  if method = "PUT" then true
  else if method = "DELETE" then false
  else enable

/-- Method `MaintenanceModeHandler.do`. -/
def MaintenanceModeHandler.do_ {σ : Type} (h : MaintenanceModeHandler σ) (r : Request)
    (wd : World σ) : World σ × Option Error :=
  let ctx := r.Context
  let enable := MaintenanceModeHandler.enableOf r.Method
  let out := h.ah.SetMaintenanceEnabled wd.store ctx enable
  let wd1 := ({ wd with store := out.1 } : World σ).record (Call.SetMaintenanceEnabled enable)
  match out.2 with
  | some err => (wd1, some (Error.withStack err))
  | none => (wd1, none)

/-- Method `MaintenanceModeHandler.ServeHTTP`. -/
def MaintenanceModeHandler.ServeHTTP {σ : Type} (u : Util) (h : MaintenanceModeHandler σ)
    (w : ResponseWriter) (r : Request) (wd : World σ) : World σ × ResponseWriter :=
  let out := h.do_ r wd
  let err := out.2
  let he := u.HTTPError w err
  let wd1 := out.1.record (Call.HTTPError err)
  if he.2 then
    (wd1.logErr err, he.1)
  else
    (wd1, he.1)

/-! ## ExportHandler -/

/-- The struct `ExportHandler`. -/
structure ExportHandler (σ : Type) where
  log : Logger
  ah : ActionHandler σ

/-- Constructor `NewExportHandler`. -/
def NewExportHandler {σ : Type} (log : Logger) (ah : ActionHandler σ) : ExportHandler σ :=
  { log := log, ah := ah }

/-- Method `ExportHandler.do`. The response writer is returned as the export
action left it. -/
def ExportHandler.do_ {σ : Type} (h : ExportHandler σ) (w : ResponseWriter) (r : Request)
    (wd : World σ) : World σ × ResponseWriter × Outcome (Option Error) :=
  let ctx := r.Context
  let out := h.ah.Export wd.store ctx w
  let wd1 := ({ wd with store := out.1 } : World σ).record Call.Export
  match out.2.2 with
  | some err => (wd1.logErr (some err), out.2.1, Outcome.panicked ErrAbortHandler)
  | none => (wd1, out.2.1, Outcome.returned none)

/-- Method `ExportHandler.ServeHTTP`. A panic of `do` leaves the method at
once; the outcome says whether the method returned or panicked. -/
def ExportHandler.ServeHTTP {σ : Type} (u : Util) (h : ExportHandler σ)
    (w : ResponseWriter) (r : Request) (wd : World σ) :
    World σ × ResponseWriter × Outcome Unit :=
  let out := h.do_ w r wd
  match out.2.2 with
  | Outcome.panicked v => (out.1, out.2.1, Outcome.panicked v)
  | Outcome.returned err =>
    let he := u.HTTPError out.2.1 err
    let wd1 := out.1.record (Call.HTTPError err)
    if he.2 then
      (wd1.logErr err, he.1, Outcome.returned ())
    else
      (wd1, he.1, Outcome.returned ())

/-! ## ImportHandler -/

/-- The struct `ImportHandler`. -/
structure ImportHandler (σ : Type) where
  log : Logger
  ah : ActionHandler σ

/-- Constructor `NewImportHandler`. -/
def NewImportHandler {σ : Type} (log : Logger) (ah : ActionHandler σ) : ImportHandler σ :=
  { log := log, ah := ah }

/-- Method `ImportHandler.do`. -/
def ImportHandler.do_ {σ : Type} (h : ImportHandler σ) (r : Request)
    (wd : World σ) : World σ × Option Error :=
  let ctx := r.Context
  let out := h.ah.Import wd.store ctx r.Body
  let wd1 := ({ wd with store := out.1 } : World σ).record (Call.Import r.Body)
  match out.2 with
  | some err => (wd1, some (Error.withStack err))
  | none => (wd1, none)

/-- Method `ImportHandler.ServeHTTP`. -/
def ImportHandler.ServeHTTP {σ : Type} (u : Util) (h : ImportHandler σ)
    (w : ResponseWriter) (r : Request) (wd : World σ) : World σ × ResponseWriter :=
  let out := h.do_ r wd
  let err := out.2
  let he := u.HTTPError w err
  let wd1 := out.1.record (Call.HTTPError err)
  if he.2 then
    (wd1.logErr err, he.1)
  else
    (wd1, he.1)

/-! ## Request sequences -/

/-- The requests of a list handled one after the other by
`MaintenanceModeHandler.do`, whatever each call returns. -/
def MaintenanceModeHandler.doAll {σ : Type} (h : MaintenanceModeHandler σ) :
    List Request → World σ → World σ
  | [], wd => wd
  | r :: rs, wd => MaintenanceModeHandler.doAll h rs (h.do_ r wd).1

/-- The handler a request is dispatched to. -/
inductive Route where
  | maintenanceStatus
  | maintenanceMode
  | exportData
  | importData
  deriving DecidableEq, Repr

/-- One process: the four handlers, which Go holds by pointer, and the world
they act on. -/
structure Server (σ : Type) where
  statusHandler : MaintenanceStatusHandler σ
  modeHandler : MaintenanceModeHandler σ
  exportHandler : ExportHandler σ
  importHandler : ImportHandler σ
  world : World σ

/-- A process whose four handlers are built by the constructors over one
action handler. -/
def Server.new {σ : Type} (log : Logger) (ah : ActionHandler σ)
    (currentMaintenanceMode : Bool) (wd : World σ) : Server σ :=
  { statusHandler := NewMaintenanceStatusHandler log ah currentMaintenanceMode
    modeHandler := NewMaintenanceModeHandler log ah
    exportHandler := NewExportHandler log ah
    importHandler := NewImportHandler log ah
    world := wd }

/-- One request served by the handler of its route. A panic of the export
handler ends that request only: the HTTP server recovers it and the process
goes on. -/
def Server.serve {σ : Type} (u : Util) (s : Server σ) (rt : Route) (w : ResponseWriter)
    (r : Request) : Server σ × ResponseWriter :=
  match rt with
  | Route.maintenanceStatus =>
    let out := s.statusHandler.ServeHTTP u w r s.world
    ({ s with world := out.1 }, out.2)
  | Route.maintenanceMode =>
    let out := s.modeHandler.ServeHTTP u w r s.world
    ({ s with world := out.1 }, out.2)
  | Route.exportData =>
    let out := s.exportHandler.ServeHTTP u w r s.world
    ({ s with world := out.1 }, out.2.1)
  | Route.importData =>
    let out := s.importHandler.ServeHTTP u w r s.world
    ({ s with world := out.1 }, out.2)

/-- A sequence of requests served in order, each on its own response writer. -/
def Server.run {σ : Type} (u : Util) (s : Server σ) :
    List (Route × ResponseWriter × Request) → Server σ
  | [] => s
  | q :: qs => Server.run u (Server.serve u s q.1 q.2.1 q.2.2).1 qs

/-- A store whose persisted flag `flag` is overwritten by each successful
`SetMaintenanceEnabled`, returned by each successful `IsMaintenanceEnabled`,
and left alone by `IsMaintenanceEnabled`. -/
structure OverwritingStore {σ : Type} (ah : ActionHandler σ) (flag : σ → Bool) : Prop where
  set_ok : ∀ s ctx b, (ah.SetMaintenanceEnabled s ctx b).2 = none →
    flag (ah.SetMaintenanceEnabled s ctx b).1 = b
  read_val : ∀ s ctx, (ah.IsMaintenanceEnabled s ctx).2.2 = none →
    (ah.IsMaintenanceEnabled s ctx).2.1 = flag s
  read_keeps : ∀ s ctx, flag (ah.IsMaintenanceEnabled s ctx).1 = flag s

/-- A store on which backing reads of the flag succeed: as long as `ok`
holds `IsMaintenanceEnabled` returns no error, and neither it nor
`SetMaintenanceEnabled` ends `ok`. -/
structure ReadableStore {σ : Type} (ah : ActionHandler σ) (ok : σ → Prop) : Prop where
  read_ok : ∀ s ctx, ok s → (ah.IsMaintenanceEnabled s ctx).2.2 = none
  read_keeps : ∀ s ctx, ok s → ok (ah.IsMaintenanceEnabled s ctx).1
  set_keeps : ∀ s ctx b, ok s → ok (ah.SetMaintenanceEnabled s ctx b).1

/-- The contract `setRequested(enable)` of the spec as an effect on the world:
one `SetMaintenanceEnabled(enable)` on the store, nothing else, and its error
handed back with the stack wrapper. -/
def setRequested {σ : Type} (ah : ActionHandler σ) (ctx : Context) (enable : Bool)
    (wd : World σ) : World σ × Option Error :=
  ({ store := (ah.SetMaintenanceEnabled wd.store ctx enable).1
     calls := wd.calls ++ [Call.SetMaintenanceEnabled enable]
     logged := wd.logged },
   (ah.SetMaintenanceEnabled wd.store ctx enable).2.map Error.withStack)

/-- Every response handed to `util.HTTPResponse` in a call list has the given
value as `CurrentStatus`. -/
def ReportsOnly (c : Bool) (calls : List Call) : Prop :=
  ∀ code res, Call.HTTPResponse code (some res) ∈ calls → res.CurrentStatus = c

/-! ## The mode convergence loop -/

/-- Modelled from the spec: the mode convergence loop runs in code that is not
under src/. Its states (§4.2). -/
inductive Phase where
  | Normal
  | Converging
  | Maintenance
  deriving DecidableEq, Repr

/-- Modelled from the spec: the mode convergence loop runs in code that is not
under src/. The flag `currentEnabled` of a state: the loop reports "the
current mode it has actually reached" (§2), so maintenance is current in
`Maintenance` only. -/
def Phase.currentEnabled : Phase → Bool
  | Phase.Maintenance => true
  | _ => false

/-- Modelled from the spec: the mode convergence loop runs in code that is not
under src/. One transition of the state machine of §4.2, given the requested
flag and the number of writes in flight: `Normal` goes to `Converging` when
the flag is true; `Converging` goes to `Maintenance` "once no write is in
flight" and waits while one is; `Maintenance` goes back to `Normal` when the
flag is false, at once, "no converging phase needed". The spec names no
transition for `Converging` under a false flag; since a disable is
"immediate" (§6) and "relaxing a restriction is always safe", it goes back to
`Normal` as well. -/
def Phase.next : Phase → Bool → Nat → Phase
  | _, false, _ => Phase.Normal
  | Phase.Normal, true, _ => Phase.Converging
  | Phase.Converging, true, 0 => Phase.Maintenance
  | Phase.Converging, true, _ + 1 => Phase.Converging
  | Phase.Maintenance, true, _ => Phase.Maintenance

/-- Modelled from the spec: the process around the handlers is not under
src/. It holds the state of its convergence loop, the number of mutating
operations in flight, and the world its handlers act on. -/
structure Process (σ : Type) where
  log : Logger
  ah : ActionHandler σ
  phase : Phase
  inFlight : Nat
  world : World σ

/-- Modelled from the spec: the mode convergence loop runs in code that is not
under src/. One iteration of the loop: read the persisted flag (§3, the flag
is "read by the convergence loop"), and when the read succeeds take the
transition of `Phase.next`; a failed read leaves the state as it is. -/
def Process.converge {σ : Type} (p : Process σ) : Process σ :=
  let out := p.ah.IsMaintenanceEnabled p.world.store { cancelled := false }
  let wd1 := ({ p.world with store := out.1 } : World σ).record Call.IsMaintenanceEnabled
  match out.2.2 with
  | some _ => { p with world := wd1 }
  | none => { p with world := wd1, phase := p.phase.next out.2.1 p.inFlight }

/-- A status query of the process: `MaintenanceStatusHandler.do` of the handler
`NewMaintenanceStatusHandler` builds with the current mode the loop has
reached. -/
def Process.status {σ : Type} (p : Process σ) (r : Request) :
    Process σ × Option MaintenanceStatusResponse × Option Error :=
  let out := (NewMaintenanceStatusHandler p.log p.ah p.phase.currentEnabled).do_ r p.world
  ({ p with world := out.1 }, out.2)

/-- An enable or disable request of the process: `MaintenanceModeHandler.do`. -/
def Process.setMaintenance {σ : Type} (p : Process σ) (r : Request) :
    Process σ × Option Error :=
  let out := (NewMaintenanceModeHandler p.log p.ah).do_ r p.world
  ({ p with world := out.1 }, out.2)

/-- Modelled from the spec: how the loop is scheduled against status queries
is not under src/. One poll: the loop has run once since the last poll, then
the status query is answered. -/
def Process.poll {σ : Type} (p : Process σ) (r : Request) :
    Process σ × Option MaintenanceStatusResponse × Option Error :=
  p.converge.status r

/-- A run of polls, with nothing else happening in between; the results are
listed in order. -/
def Process.polls {σ : Type} : Process σ → List Request →
    Process σ × List (Option MaintenanceStatusResponse × Option Error)
  | p, [] => (p, [])
  | p, r :: rs =>
    let rest := Process.polls (p.poll r).1 rs
    (rest.1, (p.poll r).2 :: rest.2)

/-- Modelled from the spec: the write path is not under src/. A mutating
operation in flight completes. -/
def Process.writeDone {σ : Type} (p : Process σ) : Process σ :=
  { p with inFlight := p.inFlight - 1 }

/-! ## A store and a transport for closed examples -/

/-- The error kind `StoreUnavailable`. -/
def StoreUnavailable : Error := Error.mk "StoreUnavailable"

/-- The error kind `TruncatedStream`. -/
def TruncatedStream : Error := Error.mk "TruncatedStream"

/-- The error of a cancelled request context. -/
def ContextCanceled : Error := Error.mk "context canceled"

/-- The terminal marker of a record stream. -/
def terminalMarker : String := "END"

/-- The store behind `specActionHandler`: the persisted flag, the committed
records, and whether backing reads and writes fail. -/
structure Store where
  requestedEnabled : Bool
  records : List String
  readFails : Bool
  writeFails : Bool
  deriving DecidableEq, Repr

/-- The record loop of the import pipeline: commit each record in arrival
order until the terminal marker; a stream that ends before the marker is
truncated, and what was committed stays. -/
def importRecords : Store → List String → Store × Option Error
  | s, [] => (s, some TruncatedStream)
  | s, rec :: rest =>
    if rec = terminalMarker then (s, none)
    else if s.writeFails then (s, some StoreUnavailable)
    else importRecords { s with records := s.records ++ [rec] } rest

/-- Modelled from the spec: package `action` (`action.ActionHandler`) is not
under src/. `IsMaintenanceEnabled` returns the persisted flag and fails with
`StoreUnavailable` when the backing read fails (§4.1 `isRequested`);
`SetMaintenanceEnabled` overwrites the flag and fails with `StoreUnavailable`
when the backing write fails (§4.1 `setRequested`); `Export` writes every
record and then the terminal marker after a success status, and fails after
the status when a read fails (§4.3); `Import` commits records in arrival order
up to the terminal marker, stops at the first failure without rollback, and
consumes nothing when the request context is cancelled (§4.4, §5). Records
are opaque strings: decoding and reference checks belong to the entity
schema. -/
def specActionHandler : ActionHandler Store where
  IsMaintenanceEnabled := fun s _ =>
    if s.readFails then (s, false, some StoreUnavailable)
    else (s, s.requestedEnabled, none)
  SetMaintenanceEnabled := fun s _ enable =>
    if s.writeFails then (s, some StoreUnavailable)
    else ({ s with requestedEnabled := enable }, none)
  Export := fun s ctx w =>
    if ctx.cancelled then (s, w, some ContextCanceled)
    else if s.readFails then
      (s, { status := some (w.status.getD StatusOK), body := w.body }, some StoreUnavailable)
    else
      (s, { status := some (w.status.getD StatusOK),
            body := w.body ++ s.records ++ [terminalMarker] }, none)
  Import := fun s ctx body =>
    if ctx.cancelled then (s, some ContextCanceled)
    else importRecords s body

/-- The message of an error, stack wrappers dropped. -/
def Error.text : Error → String
  | Error.mk msg => msg
  | Error.withStack e => e.text

/-- Modelled from the spec: package `util` (`util.HTTPError`,
`util.HTTPResponse`) is not under src/. A failure "returned normally to the
caller" (§7) is an error body written on the response: `HTTPError` writes
nothing and reports false for a nil error, and writes the error and reports
true otherwise; `HTTPResponse` writes the status code and the response. A
status already written stays. -/
def specUtil : Util where
  HTTPError := fun w err =>
    match err with
    | none => (w, false)
    | some e => ({ status := some (w.status.getD 500), body := w.body ++ ["error: " ++ e.text] }, true)
  HTTPResponse := fun w code res =>
    ({ status := some (w.status.getD code),
       body := w.body ++ [match res with
         | none => "null"
         | some v => toString v.RequestedStatus ++ "," ++ toString v.CurrentStatus] }, none)

/-- The logger of the examples. -/
def csLog : Logger := { name := "configstore" }

/-- A store with the given requested flag, no record, and working reads and
writes. -/
def Store.fresh (requestedEnabled : Bool) : Store :=
  { requestedEnabled := requestedEnabled, records := [], readFails := false,
    writeFails := false }

/-- A store with the given requested flag whose backing writes fail. -/
def Store.readOnly (requestedEnabled : Bool) : Store :=
  { requestedEnabled := requestedEnabled, records := [], readFails := false,
    writeFails := true }

/-- An import request carrying one record and the terminal marker. -/
def Request.importOf (cancelled : Bool) : Request :=
  { Method := "POST", ctx := { cancelled := cancelled }, Body := ["a", terminalMarker] }

/-- A response writer on which nothing has been written. -/
def emptyWriter : ResponseWriter := { status := none, body := [] }

/-- A world over a fresh log and call list. -/
def World.init {σ : Type} (s : σ) : World σ := { store := s, calls := [], logged := [] }

/-- A request with a live context and an empty body. -/
def Request.of (method : String) : Request :=
  { Method := method, ctx := { cancelled := false }, Body := [] }

/-- A process over `specActionHandler` in the given state of the loop. -/
def Process.start (phase : Phase) (inFlight : Nat) (s : Store) : Process Store :=
  { log := csLog, ah := specActionHandler, phase := phase, inFlight := inFlight,
    world := World.init s }

/-! ## Theorems -/

/-- C1: when the backing read `IsMaintenanceEnabled` succeeds with value `b`,
`MaintenanceStatusHandler.do` makes exactly one call, that read, leaves the
store as the read left it, and returns the response whose `RequestedStatus` is
`b`, the value read in this call on the store as it is now, and whose
`CurrentStatus` is the handler's `currentMaintenanceMode`, with a nil error. -/
theorem status_do_reads_once_and_reports {σ : Type} (h : MaintenanceStatusHandler σ)
    (r : Request) (wd : World σ) (b : Bool)
    (hread : (h.ah.IsMaintenanceEnabled wd.store r.Context).2 = (b, none)) :
    (h.do_ r wd).2 =
        (some { RequestedStatus := b, CurrentStatus := h.currentMaintenanceMode }, none) ∧
      (h.do_ r wd).1.calls = wd.calls ++ [Call.IsMaintenanceEnabled] ∧
      (h.do_ r wd).1.store = (h.ah.IsMaintenanceEnabled wd.store r.Context).1 ∧
      (h.do_ r wd).1.logged = wd.logged := by
  have h1 : (h.ah.IsMaintenanceEnabled wd.store r.Context).2.1 = b := by rw [hread]
  have h2 : (h.ah.IsMaintenanceEnabled wd.store r.Context).2.2 = none := by rw [hread]
  simp [MaintenanceStatusHandler.do_, World.record, h1, h2]

/-- Witness of C1: a handler built with current mode false over a store whose
requested flag is true reports requested true and current false after one
read. -/
theorem status_do_reads_once_and_reports_witness :
    ((NewMaintenanceStatusHandler { name := "cs" } specActionHandler false).do_
        (Request.of "GET")
        (World.init { requestedEnabled := true, records := [], readFails := false,
                      writeFails := false })).2 =
        (some { RequestedStatus := true, CurrentStatus := false }, none) ∧
      ((NewMaintenanceStatusHandler { name := "cs" } specActionHandler false).do_
        (Request.of "GET")
        (World.init { requestedEnabled := true, records := [], readFails := false,
                      writeFails := false })).1.calls = [Call.IsMaintenanceEnabled] :=
  have t := status_do_reads_once_and_reports
    (NewMaintenanceStatusHandler { name := "cs" } specActionHandler false)
    (Request.of "GET")
    (World.init { requestedEnabled := true, records := [], readFails := false,
                  writeFails := false }) true rfl
  ⟨t.1, t.2.1⟩

/-- C2: `ExportHandler.do` returns nil when the export action succeeds; when
the export action returns an error it panics with `http.ErrAbortHandler`, the
panic leaves `ExportHandler.ServeHTTP` too, the response writer stays as the
export action left it and `util.HTTPError` is never called (the calls of the
request are the export alone, the error is logged once); and `do` never
returns a non-nil error. -/
theorem export_do_aborts_never_returns_error {σ : Type} (u : Util) (h : ExportHandler σ)
    (w : ResponseWriter) (r : Request) (wd : World σ) :
    ((h.ah.Export wd.store r.Context w).2.2 = none →
        (h.do_ w r wd).2.2 = Outcome.returned none) ∧
      (∀ err, (h.ah.Export wd.store r.Context w).2.2 = some err →
        (h.do_ w r wd).2.2 = Outcome.panicked ErrAbortHandler ∧
        (h.ServeHTTP u w r wd).2.2 = Outcome.panicked ErrAbortHandler ∧
        (h.ServeHTTP u w r wd).2.1 = (h.ah.Export wd.store r.Context w).2.1 ∧
        (h.ServeHTTP u w r wd).1.calls = wd.calls ++ [Call.Export] ∧
        (h.ServeHTTP u w r wd).1.logged = wd.logged ++ [err]) ∧
      (∀ e, (h.do_ w r wd).2.2 ≠ Outcome.returned (some e)) := by
  refine ⟨?_, ?_, ?_⟩
  · intro hok
    simp [ExportHandler.do_, hok]
  · intro err herr
    simp [ExportHandler.ServeHTTP, ExportHandler.do_, herr, World.record, World.logErr]
  · intro e
    cases hx : (h.ah.Export wd.store r.Context w).2.2 <;> simp [ExportHandler.do_, hx]

/-- Witness of C2: an export from a store whose reads fail panics with
`http.ErrAbortHandler` and writes no error body after the success status. -/
theorem export_do_aborts_never_returns_error_witness :
    ((NewExportHandler { name := "cs" } specActionHandler).ServeHTTP specUtil emptyWriter
        (Request.of "GET")
        (World.init { requestedEnabled := true, records := ["a"], readFails := true,
                      writeFails := false })).2 =
      ({ status := some 200, body := [] }, Outcome.panicked ErrAbortHandler) :=
  have t := (export_do_aborts_never_returns_error specUtil
    (NewExportHandler { name := "cs" } specActionHandler) emptyWriter (Request.of "GET")
    (World.init { requestedEnabled := true, records := ["a"], readFails := true,
                  writeFails := false })).2.1 StoreUnavailable rfl
  Prod.ext t.2.2.1 t.2.1

/-- C4: `MaintenanceModeHandler.do` is `setRequested` with `enable` true for
method PUT and false for method DELETE: one call `SetMaintenanceEnabled(enable)`
on the store, no other call, nothing logged, no read of the flag, and an
error exactly when that call returned one. -/
theorem mode_do_is_setRequested {σ : Type} (h : MaintenanceModeHandler σ) (r : Request)
    (wd : World σ) (enable : Bool)
    (hm : (r.Method = "PUT" ∧ enable = true) ∨ (r.Method = "DELETE" ∧ enable = false)) :
    h.do_ r wd = setRequested h.ah r.Context enable wd ∧
      (h.do_ r wd).1.calls = wd.calls ++ [Call.SetMaintenanceEnabled enable] ∧
      (h.do_ r wd).1.store = (h.ah.SetMaintenanceEnabled wd.store r.Context enable).1 ∧
      (h.do_ r wd).1.logged = wd.logged ∧
      ((h.do_ r wd).2 = none ↔
        (h.ah.SetMaintenanceEnabled wd.store r.Context enable).2 = none) := by
  have he : MaintenanceModeHandler.enableOf r.Method = enable := by
    rcases hm with ⟨h1, h2⟩ | ⟨h1, h2⟩ <;> simp [MaintenanceModeHandler.enableOf, h1, h2]
  cases hx : (h.ah.SetMaintenanceEnabled wd.store r.Context enable).2 <;>
    simp [MaintenanceModeHandler.do_, setRequested, World.record, he, hx]

/-- Witness of C4: a PUT on a store whose writes fail makes the one call
`SetMaintenanceEnabled(true)` and returns its error. -/
theorem mode_do_is_setRequested_witness :
    ((NewMaintenanceModeHandler { name := "cs" } specActionHandler).do_ (Request.of "PUT")
        (World.init { requestedEnabled := false, records := [], readFails := false,
                      writeFails := true })).1.calls = [Call.SetMaintenanceEnabled true] :=
  (mode_do_is_setRequested (NewMaintenanceModeHandler { name := "cs" } specActionHandler)
    (Request.of "PUT")
    (World.init { requestedEnabled := false, records := [], readFails := false,
                  writeFails := true }) true (Or.inl ⟨rfl, rfl⟩)).2.1

/-- C6: `MaintenanceStatusHandler.do` returns a nil response with a non-nil
error exactly when `IsMaintenanceEnabled` returns an error, and a non-nil
response with a nil error exactly when it does not; it never returns both,
and its error does not depend on `currentMaintenanceMode`. -/
theorem status_do_fails_iff_read_fails {σ : Type} (h : MaintenanceStatusHandler σ)
    (r : Request) (wd : World σ) :
    (((h.do_ r wd).2.1 = none ∧ (h.do_ r wd).2.2 ≠ none) ↔
        (h.ah.IsMaintenanceEnabled wd.store r.Context).2.2 ≠ none) ∧
      (((h.do_ r wd).2.1 ≠ none ∧ (h.do_ r wd).2.2 = none) ↔
        (h.ah.IsMaintenanceEnabled wd.store r.Context).2.2 = none) ∧
      ¬ ((h.do_ r wd).2.1 ≠ none ∧ (h.do_ r wd).2.2 ≠ none) ∧
      (h.do_ r wd).2.2 =
        (h.ah.IsMaintenanceEnabled wd.store r.Context).2.2.map Error.withStack ∧
      (∀ c : Bool, (({ h with currentMaintenanceMode := c } :
        MaintenanceStatusHandler σ).do_ r wd).2.2 = (h.do_ r wd).2.2) := by
  cases hx : (h.ah.IsMaintenanceEnabled wd.store r.Context).2.2 <;>
    simp [MaintenanceStatusHandler.do_, hx]

/-- C10: `MaintenanceModeHandler.do` calls `SetMaintenanceEnabled` with true
if and only if the method is exactly "PUT"; for "DELETE" and for any other
method, such as "POST", "GET" or "put", the one call it makes is
`SetMaintenanceEnabled(false)`: the request is not rejected. -/
theorem mode_do_enables_iff_put {σ : Type} (h : MaintenanceModeHandler σ) (r : Request)
    (wd : World σ) :
    (h.do_ r wd).1.calls =
        wd.calls ++ [Call.SetMaintenanceEnabled (decide (r.Method = "PUT"))] ∧
      (h.do_ r wd).1.store =
        (h.ah.SetMaintenanceEnabled wd.store r.Context (decide (r.Method = "PUT"))).1 ∧
      (MaintenanceModeHandler.enableOf r.Method = true ↔ r.Method = "PUT") ∧
      MaintenanceModeHandler.enableOf "DELETE" = false ∧
      MaintenanceModeHandler.enableOf "POST" = false ∧
      MaintenanceModeHandler.enableOf "GET" = false ∧
      MaintenanceModeHandler.enableOf "put" = false := by
  have he : MaintenanceModeHandler.enableOf r.Method = decide (r.Method = "PUT") := by
    by_cases h1 : r.Method = "PUT" <;> simp [MaintenanceModeHandler.enableOf, h1]
  refine ⟨?_, ?_, ?_, by decide, by decide, by decide, by decide⟩
  · cases hx : (h.ah.SetMaintenanceEnabled wd.store r.Context (decide (r.Method = "PUT"))).2 <;>
      simp [MaintenanceModeHandler.do_, World.record, he, hx]
  · cases hx : (h.ah.SetMaintenanceEnabled wd.store r.Context (decide (r.Method = "PUT"))).2 <;>
      simp [MaintenanceModeHandler.do_, World.record, he, hx]
  · simp [he]

/-! ### Sequences of writes and polls -/

/-- The store `specActionHandler` acts on is an overwriting store for its
persisted flag. -/
theorem specActionHandler_overwriting :
    OverwritingStore specActionHandler Store.requestedEnabled := by
  refine ⟨?_, ?_, ?_⟩
  · intro s ctx b
    by_cases hw : s.writeFails <;> simp [specActionHandler, hw, StoreUnavailable]
  · intro s ctx
    by_cases hr : s.readFails <;> simp [specActionHandler, hr, StoreUnavailable]
  · intro s ctx
    by_cases hr : s.readFails <;> simp [specActionHandler, hr]

/-- Handling one more request after a list is handling the longer list. -/
theorem MaintenanceModeHandler.doAll_append {σ : Type} (h : MaintenanceModeHandler σ)
    (reqs : List Request) (last : Request) (wd : World σ) :
    h.doAll (reqs ++ [last]) wd = (h.do_ last (h.doAll reqs wd)).1 := by
  induction reqs generalizing wd with
  | nil => rfl
  | cons r rs ih => simp [MaintenanceModeHandler.doAll, ih]

/-- A successful `MaintenanceModeHandler.do` leaves the flag of an overwriting
store at the value of `enable`. -/
theorem MaintenanceModeHandler.do_sets_flag {σ : Type} (h : MaintenanceModeHandler σ)
    (flag : σ → Bool) (hst : OverwritingStore h.ah flag) (r : Request) (wd : World σ)
    (hok : (h.do_ r wd).2 = none) :
    flag (h.do_ r wd).1.store = MaintenanceModeHandler.enableOf r.Method := by
  cases hx : (h.ah.SetMaintenanceEnabled wd.store r.Context
      (MaintenanceModeHandler.enableOf r.Method)).2 with
  | some e => simp [MaintenanceModeHandler.do_, hx] at hok
  | none =>
    have := hst.set_ok wd.store r.Context (MaintenanceModeHandler.enableOf r.Method) hx
    simpa [MaintenanceModeHandler.do_, World.record, hx] using this

/-- A status query on an overwriting store either fails with a nil response
or reports the flag and the handler's current mode; it leaves the flag alone. -/
theorem MaintenanceStatusHandler.do_on_flag {σ : Type} (h : MaintenanceStatusHandler σ)
    (flag : σ → Bool) (hst : OverwritingStore h.ah flag) (r : Request) (wd : World σ) :
    flag (h.do_ r wd).1.store = flag wd.store ∧
      ((h.do_ r wd).2 = (some { RequestedStatus := flag wd.store,
                                CurrentStatus := h.currentMaintenanceMode }, none) ∨
        ((h.do_ r wd).2.1 = none ∧ (h.do_ r wd).2.2 ≠ none)) := by
  have hk := hst.read_keeps wd.store r.Context
  cases hx : (h.ah.IsMaintenanceEnabled wd.store r.Context).2.2 with
  | some e => simp [MaintenanceStatusHandler.do_, World.record, hx, hk]
  | none =>
    have hv := hst.read_val wd.store r.Context hx
    simp [MaintenanceStatusHandler.do_, World.record, hx, hk, hv]

/-- C3, refuted as stated: on an overwriting store whose backing writes fail
and whose flag is false, the one-request sequence PUT is handled with an
error, and the following status query reports requested false, not the
argument true of the last call. -/
theorem last_call_argument_lost_when_write_fails :
    OverwritingStore specActionHandler Store.requestedEnabled ∧
      MaintenanceModeHandler.enableOf (Request.of "PUT").Method = true ∧
      ((NewMaintenanceModeHandler csLog specActionHandler).do_ (Request.of "PUT")
        (World.init (Store.readOnly false))).2 = some (Error.withStack StoreUnavailable) ∧
      ((NewMaintenanceStatusHandler csLog specActionHandler false).do_ (Request.of "GET")
        ((NewMaintenanceModeHandler csLog specActionHandler).doAll [Request.of "PUT"]
          (World.init (Store.readOnly false)))).2 =
        (some { RequestedStatus := false, CurrentStatus := false }, none) :=
  ⟨specActionHandler_overwriting, by decide, by decide, by decide⟩

/-- C3, amended: on an overwriting store, after any sequence of requests
handled by `MaintenanceModeHandler.do` whose last request is a PUT or a DELETE
that succeeded, a following `MaintenanceStatusHandler.do` whose read succeeds
reports `requestedStatus` equal to the argument of that last call, true for
PUT and false for DELETE, whatever the flag was before: an enable on a flag
already true is handled like any other. -/
theorem last_successful_write_wins {σ : Type} (hm : MaintenanceModeHandler σ)
    (hs : MaintenanceStatusHandler σ) (flag : σ → Bool)
    (hst : OverwritingStore hm.ah flag) (hah : hs.ah = hm.ah)
    (reqs : List Request) (last : Request) (wd : World σ) (b : Bool) (poll : Request)
    (hmeth : (last.Method = "PUT" ∧ b = true) ∨ (last.Method = "DELETE" ∧ b = false))
    (hok : (hm.do_ last (hm.doAll reqs wd)).2 = none)
    (hread : (hs.ah.IsMaintenanceEnabled (hm.doAll (reqs ++ [last]) wd).store
      poll.Context).2.2 = none) :
    (hs.do_ poll (hm.doAll (reqs ++ [last]) wd)).2 =
      (some { RequestedStatus := b, CurrentStatus := hs.currentMaintenanceMode }, none) := by
  have he : MaintenanceModeHandler.enableOf last.Method = b := by
    rcases hmeth with ⟨h1, h2⟩ | ⟨h1, h2⟩ <;> simp [MaintenanceModeHandler.enableOf, h1, h2]
  have hflag := MaintenanceModeHandler.do_sets_flag hm flag hst last (hm.doAll reqs wd) hok
  rw [he, ← MaintenanceModeHandler.doAll_append] at hflag
  have hst2 : OverwritingStore hs.ah flag := by rw [hah]; exact hst
  have hv := hst2.read_val _ _ hread
  rw [hflag] at hv
  simp [MaintenanceStatusHandler.do_, hread, hv]

/-- Witness of the amended C3: enable, disable, then enable twice on a fresh
store; the status query reports requested true. -/
theorem last_successful_write_wins_witness :
    ((NewMaintenanceStatusHandler csLog specActionHandler false).do_ (Request.of "GET")
      ((NewMaintenanceModeHandler csLog specActionHandler).doAll
        ([Request.of "PUT", Request.of "DELETE", Request.of "PUT"] ++ [Request.of "PUT"])
        (World.init (Store.fresh false)))).2 =
      (some { RequestedStatus := true, CurrentStatus := false }, none) :=
  last_successful_write_wins (NewMaintenanceModeHandler csLog specActionHandler)
    (NewMaintenanceStatusHandler csLog specActionHandler false) Store.requestedEnabled
    specActionHandler_overwriting rfl
    [Request.of "PUT", Request.of "DELETE", Request.of "PUT"] (Request.of "PUT")
    (World.init (Store.fresh false)) true (Request.of "GET")
    (Or.inl ⟨rfl, rfl⟩) (by decide) (by decide)

/-! ### Import -/

/-- C5, refuted as stated: an import whose request context is already
cancelled fails, `ImportHandler.do` returns the error, and
`ImportHandler.ServeHTTP` hands it to `util.HTTPError`, which writes an error
response, as it does for a failed import under a live context. -/
theorem import_error_answered_under_cancelled_context :
    (Request.importOf true).Context.cancelled = true ∧
      ((NewImportHandler csLog specActionHandler).do_ (Request.importOf true)
        (World.init (Store.fresh true))).2 = some (Error.withStack ContextCanceled) ∧
      ((NewImportHandler csLog specActionHandler).ServeHTTP specUtil emptyWriter
        (Request.importOf true) (World.init (Store.fresh true))).1.calls =
        [Call.Import ["a", "END"],
         Call.HTTPError (some (Error.withStack ContextCanceled))] ∧
      ((NewImportHandler csLog specActionHandler).ServeHTTP specUtil emptyWriter
        (Request.importOf true) (World.init (Store.fresh true))).2 =
        { status := some 500, body := ["error: context canceled"] } :=
  ⟨by decide, by decide, by decide, by decide⟩

/-- C5, amended: for every request, whatever its context, `ImportHandler.do`
calls the import action once on the request body and returns a non-nil error
exactly when that call returned one (the same error under the stack wrapper)
and nil exactly when it succeeded; `ImportHandler.ServeHTTP` hands that result
to `util.HTTPError` and answers with what `util.HTTPError` wrote, without
looking at the request context. -/
theorem import_do_error_iff_action_error {σ : Type} (u : Util) (h : ImportHandler σ)
    (w : ResponseWriter) (r : Request) (wd : World σ) :
    ((h.do_ r wd).2 = none ↔ (h.ah.Import wd.store r.Context r.Body).2 = none) ∧
      (h.do_ r wd).2 = (h.ah.Import wd.store r.Context r.Body).2.map Error.withStack ∧
      (h.do_ r wd).1.calls = wd.calls ++ [Call.Import r.Body] ∧
      (h.do_ r wd).1.store = (h.ah.Import wd.store r.Context r.Body).1 ∧
      (h.ServeHTTP u w r wd).1.calls =
        wd.calls ++ [Call.Import r.Body, Call.HTTPError (h.do_ r wd).2] ∧
      (h.ServeHTTP u w r wd).2 = (u.HTTPError w (h.do_ r wd).2).1 := by
  cases hx : (h.ah.Import wd.store r.Context r.Body).2 <;>
    by_cases hb : (u.HTTPError w (h.do_ r wd).2).2 <;>
    simp_all [ImportHandler.ServeHTTP, ImportHandler.do_, World.record, World.logErr]

/-! ### The process -/

/-- Serving a request leaves the status handler as it was. -/
theorem Server.serve_statusHandler {σ : Type} (u : Util) (s : Server σ) (rt : Route)
    (w : ResponseWriter) (r : Request) :
    (Server.serve u s rt w r).1.statusHandler = s.statusHandler := by
  cases rt <;> rfl

/-- A run of requests leaves the status handler as it was. -/
theorem Server.run_statusHandler {σ : Type} (u : Util) (s : Server σ)
    (qs : List (Route × ResponseWriter × Request)) :
    (Server.run u s qs).statusHandler = s.statusHandler := by
  induction qs generalizing s with
  | nil => rfl
  | cons q qs ih => simp [Server.run, ih, Server.serve_statusHandler]

/-- A status query reports the handler's current mode or no response. -/
theorem MaintenanceStatusHandler.do_current {σ : Type} (h : MaintenanceStatusHandler σ)
    (r : Request) (wd : World σ) (res : MaintenanceStatusResponse)
    (hres : (h.do_ r wd).2.1 = some res) : res.CurrentStatus = h.currentMaintenanceMode := by
  cases hx : (h.ah.IsMaintenanceEnabled wd.store r.Context).2.2 with
  | some e => simp [MaintenanceStatusHandler.do_, hx] at hres
  | none =>
    simp [MaintenanceStatusHandler.do_, hx] at hres
    rw [← hres]

/-- Serving a request keeps `ReportsOnly` for the status handler's mode. -/
theorem Server.serve_reportsOnly {σ : Type} (u : Util) (s : Server σ) (rt : Route)
    (w : ResponseWriter) (r : Request)
    (hinv : ReportsOnly s.statusHandler.currentMaintenanceMode s.world.calls) :
    ReportsOnly s.statusHandler.currentMaintenanceMode
      (Server.serve u s rt w r).1.world.calls := by
  intro code res hmem
  cases rt with
  | maintenanceStatus =>
    have hcur := MaintenanceStatusHandler.do_current s.statusHandler r s.world res
    have hcalls : (s.statusHandler.do_ r s.world).1.calls =
        s.world.calls ++ [Call.IsMaintenanceEnabled] := by
      cases hx : (s.statusHandler.ah.IsMaintenanceEnabled s.world.store r.Context).2.2 <;>
        simp [MaintenanceStatusHandler.do_, World.record, hx]
    have hlog : ∀ (wd : World σ) (e : Option Error), (wd.logErr e).calls = wd.calls := by
      intro wd e; cases e <;> rfl
    by_cases hb : (u.HTTPError w (s.statusHandler.do_ r s.world).2.2).2
    · simp [Server.serve, MaintenanceStatusHandler.ServeHTTP, hb, hlog, World.record,
        hcalls] at hmem
      exact hinv code res hmem
    · simp [Server.serve, MaintenanceStatusHandler.ServeHTTP, hb, hlog, World.record,
        hcalls] at hmem
      rcases hmem with hold | ⟨_, hnew⟩
      · exact hinv code res hold
      · exact hcur hnew.symm
  | maintenanceMode =>
    have hlog : ∀ (wd : World σ) (e : Option Error), (wd.logErr e).calls = wd.calls := by
      intro wd e; cases e <;> rfl
    have hcalls : (s.modeHandler.do_ r s.world).1.calls = s.world.calls ++
        [Call.SetMaintenanceEnabled (MaintenanceModeHandler.enableOf r.Method)] := by
      cases hx : (s.modeHandler.ah.SetMaintenanceEnabled s.world.store r.Context
          (MaintenanceModeHandler.enableOf r.Method)).2 <;>
        simp [MaintenanceModeHandler.do_, World.record, hx]
    by_cases hb : (u.HTTPError w (s.modeHandler.do_ r s.world).2).2 <;>
      simp [Server.serve, MaintenanceModeHandler.ServeHTTP, hb, hlog, World.record,
        hcalls] at hmem <;>
      exact hinv code res hmem
  | exportData =>
    have hlog : ∀ (wd : World σ) (e : Option Error), (wd.logErr e).calls = wd.calls := by
      intro wd e; cases e <;> rfl
    cases hx : (s.exportHandler.ah.Export s.world.store r.Context w).2.2 with
    | some e =>
      simp [Server.serve, ExportHandler.ServeHTTP, ExportHandler.do_, hx, World.record,
        World.logErr] at hmem
      exact hinv code res hmem
    | none =>
      by_cases hb : (u.HTTPError
          (s.exportHandler.ah.Export s.world.store r.Context w).2.1 none).2 <;>
        simp [Server.serve, ExportHandler.ServeHTTP, ExportHandler.do_, hx, hb, hlog,
          World.record, World.logErr] at hmem <;>
        exact hinv code res hmem
  | importData =>
    have hlog : ∀ (wd : World σ) (e : Option Error), (wd.logErr e).calls = wd.calls := by
      intro wd e; cases e <;> rfl
    have hcalls : (s.importHandler.do_ r s.world).1.calls =
        s.world.calls ++ [Call.Import r.Body] := by
      cases hx : (s.importHandler.ah.Import s.world.store r.Context r.Body).2 <;>
        simp [ImportHandler.do_, World.record, hx]
    by_cases hb : (u.HTTPError w (s.importHandler.do_ r s.world).2).2 <;>
      simp [Server.serve, ImportHandler.ServeHTTP, hb, hlog, World.record, hcalls] at hmem <;>
      exact hinv code res hmem

/-- A run of requests keeps `ReportsOnly` for the status handler's mode. -/
theorem Server.run_reportsOnly {σ : Type} (u : Util) (s : Server σ)
    (qs : List (Route × ResponseWriter × Request))
    (hinv : ReportsOnly s.statusHandler.currentMaintenanceMode s.world.calls) :
    ReportsOnly s.statusHandler.currentMaintenanceMode (Server.run u s qs).world.calls := by
  induction qs generalizing s with
  | nil => exact hinv
  | cons q qs ih =>
    have hstep := Server.serve_reportsOnly u s q.1 q.2.1 q.2.2 hinv
    have hsame := Server.serve_statusHandler u s q.1 q.2.1 q.2.2
    have := ih (Server.serve u s q.1 q.2.1 q.2.2).1 (by rw [hsame]; exact hstep)
    rw [hsame] at this
    exact this

/-- C7: after every sequence of status, enable, disable, export and import
requests served by the four handlers of a process, the status handler is the
one `NewMaintenanceStatusHandler` built, its `currentMaintenanceMode` is the
constructor's argument, every response its `do` returns has that argument as
`CurrentStatus`, and so has every response the run handed to
`util.HTTPResponse`. -/
theorem current_mode_fixed_by_constructor {σ : Type} (u : Util) (log : Logger)
    (ah : ActionHandler σ) (c : Bool) (wd : World σ)
    (qs : List (Route × ResponseWriter × Request)) :
    (Server.run u (Server.new log ah c wd) qs).statusHandler.currentMaintenanceMode = c ∧
      (NewMaintenanceStatusHandler log ah c).currentMaintenanceMode = c ∧
      (∀ r wd1 res,
        ((Server.run u (Server.new log ah c wd) qs).statusHandler.do_ r wd1).2.1 = some res →
          res.CurrentStatus = c) ∧
      (ReportsOnly c wd.calls →
        ReportsOnly c (Server.run u (Server.new log ah c wd) qs).world.calls) := by
  have hsame := Server.run_statusHandler u (Server.new log ah c wd) qs
  refine ⟨by rw [hsame]; rfl, rfl, ?_, ?_⟩
  · intro r wd1 res hres
    have := MaintenanceStatusHandler.do_current _ r wd1 res hres
    rw [this, hsame]; rfl
  · intro hinv
    exact Server.run_reportsOnly u (Server.new log ah c wd) qs hinv

/-- Witness of C7: a process built with current mode false serves a status
query, an enable, an export, an import, a disable and a status query; both
answers carry current false while the requested flag went from false to true
and back. -/
theorem current_mode_fixed_by_constructor_witness :
    (Server.run specUtil (Server.new csLog specActionHandler false (World.init (Store.fresh false)))
        [(Route.maintenanceStatus, emptyWriter, Request.of "GET"),
         (Route.maintenanceMode, emptyWriter, Request.of "PUT"),
         (Route.maintenanceStatus, emptyWriter, Request.of "GET"),
         (Route.exportData, emptyWriter, Request.of "GET"),
         (Route.importData, emptyWriter, Request.importOf false),
         (Route.maintenanceMode, emptyWriter, Request.of "DELETE")]
      ).statusHandler.currentMaintenanceMode = false ∧
      ReportsOnly false
        (Server.run specUtil
          (Server.new csLog specActionHandler false (World.init (Store.fresh false)))
          [(Route.maintenanceStatus, emptyWriter, Request.of "GET"),
           (Route.maintenanceMode, emptyWriter, Request.of "PUT"),
           (Route.maintenanceStatus, emptyWriter, Request.of "GET"),
           (Route.exportData, emptyWriter, Request.of "GET"),
           (Route.importData, emptyWriter, Request.importOf false),
           (Route.maintenanceMode, emptyWriter, Request.of "DELETE")]).world.calls :=
  have t := current_mode_fixed_by_constructor specUtil csLog specActionHandler false
    (World.init (Store.fresh false))
    [(Route.maintenanceStatus, emptyWriter, Request.of "GET"),
     (Route.maintenanceMode, emptyWriter, Request.of "PUT"),
     (Route.maintenanceStatus, emptyWriter, Request.of "GET"),
     (Route.exportData, emptyWriter, Request.of "GET"),
     (Route.importData, emptyWriter, Request.importOf false),
     (Route.maintenanceMode, emptyWriter, Request.of "DELETE")]
  ⟨t.1, t.2.2.2 (fun _ _ hmem => absurd hmem (List.not_mem_nil _))⟩

/-- C9, refuted as stated: in a process whose current maintenance mode is
true, an import request is not rejected: the import handler calls the import
action, the record of the stream is committed to the store, `do` returns nil
and no error is written on the response. -/
theorem import_served_while_current_mode_true :
    (Server.new csLog specActionHandler true
        (World.init (Store.fresh true))).statusHandler.currentMaintenanceMode = true ∧
      ((Server.new csLog specActionHandler true
        (World.init (Store.fresh true))).importHandler.do_ (Request.importOf false)
          (World.init (Store.fresh true))).2 = none ∧
      (Server.serve specUtil
        (Server.new csLog specActionHandler true (World.init (Store.fresh true)))
        Route.importData emptyWriter (Request.importOf false)).1.world.calls =
        [Call.Import ["a", "END"], Call.HTTPError none] ∧
      (Server.serve specUtil
        (Server.new csLog specActionHandler true (World.init (Store.fresh true)))
        Route.importData emptyWriter (Request.importOf false)).1.world.store.records = ["a"] ∧
      (Server.serve specUtil
        (Server.new csLog specActionHandler true (World.init (Store.fresh true)))
        Route.importData emptyWriter (Request.importOf false)).2 = emptyWriter :=
  ⟨by decide, by decide, by decide, by decide, by decide⟩

/-- C9, amended: in a process whose current maintenance mode is `c`, true
included, an import request is served like any other: the import handler
calls the import action once on the request body, the store is what that
action left, and `do` returns the action's error under the stack wrapper, so
a rejection can only come from the action; and `MaintenanceStatusHandler.do`
succeeds, reporting current mode `c`, whenever the backing read succeeds. -/
theorem import_not_gated_by_current_mode {σ : Type} (u : Util) (log : Logger)
    (ah : ActionHandler σ) (c : Bool) (wd : World σ) (w : ResponseWriter) (r : Request) :
    ((Server.new log ah c wd).importHandler.do_ r wd).1.calls =
        wd.calls ++ [Call.Import r.Body] ∧
      ((Server.new log ah c wd).importHandler.do_ r wd).2 =
        (ah.Import wd.store r.Context r.Body).2.map Error.withStack ∧
      (Server.serve u (Server.new log ah c wd) Route.importData w r).1.world.store =
        (ah.Import wd.store r.Context r.Body).1 ∧
      ((ah.IsMaintenanceEnabled wd.store r.Context).2.2 = none →
        ((Server.new log ah c wd).statusHandler.do_ r wd).2 =
          (some { RequestedStatus := (ah.IsMaintenanceEnabled wd.store r.Context).2.1,
                  CurrentStatus := c }, none)) := by
  have hlog : ∀ (wd1 : World σ) (e : Option Error), (wd1.logErr e).store = wd1.store := by
    intro wd1 e; cases e <;> rfl
  refine ⟨?_, ?_, ?_, ?_⟩
  · cases hx : (ah.Import wd.store r.Context r.Body).2 <;>
      simp [Server.new, NewImportHandler, ImportHandler.do_, World.record, hx]
  · cases hx : (ah.Import wd.store r.Context r.Body).2 <;>
      simp [Server.new, NewImportHandler, ImportHandler.do_, World.record, hx]
  · have hst : ((NewImportHandler log ah).do_ r wd).1.store =
        (ah.Import wd.store r.Context r.Body).1 := by
      cases hx : (ah.Import wd.store r.Context r.Body).2 <;>
        simp [NewImportHandler, ImportHandler.do_, World.record, hx]
    by_cases hb : (u.HTTPError w ((NewImportHandler log ah).do_ r wd).2).2 <;>
      simp [Server.serve, Server.new, ImportHandler.ServeHTTP, hb, hlog, World.record, hst]
  · intro hx
    simp [Server.new, NewMaintenanceStatusHandler, MaintenanceStatusHandler.do_, hx]

/-- Witness of the amended C9: with current mode true and a working read, the
status query succeeds and reports requested true and current true. -/
theorem import_not_gated_by_current_mode_witness :
    ((Server.new csLog specActionHandler true
        (World.init (Store.fresh true))).statusHandler.do_ (Request.of "GET")
          (World.init (Store.fresh true))).2 =
      (some { RequestedStatus := true, CurrentStatus := true }, none) :=
  (import_not_gated_by_current_mode specUtil csLog specActionHandler true
    (World.init (Store.fresh true)) emptyWriter (Request.of "GET")).2.2.2 rfl

/-- Witness of C10: a POST reaching the handler on a store whose flag is true
is not rejected; it makes the call `SetMaintenanceEnabled(false)`. -/
theorem mode_do_enables_iff_put_witness :
    ((NewMaintenanceModeHandler csLog specActionHandler).do_ (Request.of "POST")
        (World.init (Store.fresh true))).1.calls = [] ++ [Call.SetMaintenanceEnabled false] :=
  (mode_do_enables_iff_put (NewMaintenanceModeHandler csLog specActionHandler)
    (Request.of "POST") (World.init (Store.fresh true))).1

/-! ### Convergence of the process -/

/-- Backing reads succeed on a store of `specActionHandler` whose reads do not
fail. -/
theorem specActionHandler_readable :
    ReadableStore specActionHandler (fun s => s.readFails = false) := by
  refine ⟨?_, ?_, ?_⟩
  · intro s ctx hs
    simp [specActionHandler, hs]
  · intro s ctx hs
    simp [specActionHandler, hs]
  · intro s ctx b hs
    by_cases hw : s.writeFails <;> simp [specActionHandler, hw, hs]

/-- One poll of a process over an overwriting store whose reads succeed: the
loop takes its transition on the persisted flag, the answer reports the flag
and the mode reached, and the flag and the writes in flight stay. -/
theorem Process.poll_on_flag {σ : Type} (p : Process σ) (flag : σ → Bool) (ok : σ → Prop)
    (hst : OverwritingStore p.ah flag) (hrd : ReadableStore p.ah ok)
    (hok0 : ok p.world.store) (r : Request) :
    (p.poll r).2 =
        (some { RequestedStatus := flag p.world.store,
                CurrentStatus := (p.phase.next (flag p.world.store) p.inFlight).currentEnabled },
         none) ∧
      (p.poll r).1.phase = p.phase.next (flag p.world.store) p.inFlight ∧
      (p.poll r).1.inFlight = p.inFlight ∧
      (p.poll r).1.ah = p.ah ∧
      flag (p.poll r).1.world.store = flag p.world.store ∧
      ok (p.poll r).1.world.store := by
  have h1 := hrd.read_ok p.world.store { cancelled := false } hok0
  have o1 := hrd.read_keeps p.world.store { cancelled := false } hok0
  have v1 := hst.read_val p.world.store { cancelled := false } h1
  have k1 := hst.read_keeps p.world.store { cancelled := false }
  have h2 := hrd.read_ok _ r.Context o1
  have o2 := hrd.read_keeps _ r.Context o1
  have v2 := hst.read_val _ r.Context h2
  have k2 := hst.read_keeps
    (p.ah.IsMaintenanceEnabled p.world.store { cancelled := false }).1 r.Context
  rw [k1] at v2 k2
  simp [Process.poll, Process.converge, Process.status, NewMaintenanceStatusHandler,
    MaintenanceStatusHandler.do_, World.record, h1, v1, h2, v2, k2, o2]

/-- A successful enable or disable of a process over an overwriting store
leaves the flag at the value of `enable` and the loop as it was. -/
theorem Process.setMaintenance_on_flag {σ : Type} (p : Process σ) (flag : σ → Bool)
    (ok : σ → Prop) (hst : OverwritingStore p.ah flag) (hrd : ReadableStore p.ah ok)
    (hok0 : ok p.world.store) (r : Request) (hok : (p.setMaintenance r).2 = none) :
    flag (p.setMaintenance r).1.world.store = MaintenanceModeHandler.enableOf r.Method ∧
      (p.setMaintenance r).1.phase = p.phase ∧
      (p.setMaintenance r).1.inFlight = p.inFlight ∧
      (p.setMaintenance r).1.ah = p.ah ∧
      ok (p.setMaintenance r).1.world.store := by
  refine ⟨MaintenanceModeHandler.do_sets_flag (NewMaintenanceModeHandler p.log p.ah) flag hst r
    p.world hok, rfl, rfl, rfl, ?_⟩
  have hk := hrd.set_keeps p.world.store r.Context
    (MaintenanceModeHandler.enableOf r.Method) hok0
  cases hx : (p.ah.SetMaintenanceEnabled p.world.store r.Context
      (MaintenanceModeHandler.enableOf r.Method)).2 <;>
    simpa [Process.setMaintenance, NewMaintenanceModeHandler, MaintenanceModeHandler.do_,
      World.record, hx] using hk

/-- While the flag is true and a write stays in flight, a process that has not
reached `Maintenance` answers every poll with requested true, current false. -/
theorem Process.polls_stalled {σ : Type} (flag : σ → Bool) (ok : σ → Prop)
    (polls : List Request) (p : Process σ) (hst : OverwritingStore p.ah flag)
    (hrd : ReadableStore p.ah ok) (hok0 : ok p.world.store)
    (hflag : flag p.world.store = true) (hfl : 0 < p.inFlight)
    (hph : p.phase ≠ Phase.Maintenance) :
    ∀ out ∈ (p.polls polls).2,
      out = (some { RequestedStatus := true, CurrentStatus := false }, none) := by
  induction polls generalizing p with
  | nil => intro out hout; simp [Process.polls] at hout
  | cons r rs ih =>
    obtain ⟨hres, hphase, hin, hah, hfl2, hok1⟩ := Process.poll_on_flag p flag ok hst hrd hok0 r
    rw [hflag] at hres hphase hfl2
    obtain ⟨n, hn⟩ : ∃ n, p.inFlight = n + 1 := ⟨p.inFlight - 1, by omega⟩
    have hnext : p.phase.next true p.inFlight = Phase.Converging := by
      rw [hn]
      cases hp : p.phase with
      | Normal => rfl
      | Converging => rfl
      | Maintenance => exact absurd hp hph
    rw [hnext] at hres hphase
    intro out hout
    simp only [Process.polls, List.mem_cons] at hout
    rcases hout with hhead | htail
    · rw [hhead, hres]; rfl
    · exact ih (p.poll r).1 (by rw [hah]; exact hst) (by rw [hah]; exact hrd) hok1 hfl2
        (by rw [hin]; exact hfl) (by rw [hphase]; decide) out htail

/-- With the flag true and no write in flight, the second poll of a process
reports requested true, current true. -/
theorem Process.polls_drained {σ : Type} (flag : σ → Bool) (ok : σ → Prop) (p : Process σ)
    (hst : OverwritingStore p.ah flag) (hrd : ReadableStore p.ah ok)
    (hok0 : ok p.world.store)
    (hflag : flag p.world.store = true) (hfl : p.inFlight = 0) (r1 r2 : Request) :
    ((p.poll r1).1.poll r2).2 =
      (some { RequestedStatus := true, CurrentStatus := true }, none) := by
  obtain ⟨_, hphase, hin, hah, hfl2, hok1⟩ := Process.poll_on_flag p flag ok hst hrd hok0 r1
  have hst1 : OverwritingStore (p.poll r1).1.ah flag := by rw [hah]; exact hst
  have hrd1 : ReadableStore (p.poll r1).1.ah ok := by rw [hah]; exact hrd
  obtain ⟨hres, _⟩ := Process.poll_on_flag (p.poll r1).1 flag ok hst1 hrd1 hok1 r2
  rw [hfl2, hflag, hphase, hin, hflag, hfl] at hres
  rw [hres]
  cases p.phase <;> rfl

/-- C8, refuted as stated: a process in `Normal` with one mutating operation
in flight handles an enable successfully; while that operation stays in
flight the next five polls all report requested true and current false, so
none reports both true. Once the operation completes, the next poll does. -/
theorem convergence_stalls_while_write_in_flight :
    ((Process.start Phase.Normal 1 (Store.fresh false)).setMaintenance
        (Request.of "PUT")).2 = none ∧
      (((Process.start Phase.Normal 1 (Store.fresh false)).setMaintenance
        (Request.of "PUT")).1.polls (List.replicate 5 (Request.of "GET"))).2 =
        List.replicate 5 (some { RequestedStatus := true, CurrentStatus := false }, none) ∧
      ((((Process.start Phase.Normal 1 (Store.fresh false)).setMaintenance
        (Request.of "PUT")).1.polls
          (List.replicate 5 (Request.of "GET"))).1.writeDone.poll (Request.of "GET")).2 =
        (some { RequestedStatus := true, CurrentStatus := true }, none) :=
  ⟨by decide, by decide, by decide⟩

/-- C8, amended: for a process over an overwriting store whose reads succeed,
after a successful enable or disable with argument `b` and no further write:
when `b` is true and no write is in flight, one of the next two polls reports
requested and current both true; when `b` is false the next poll reports
both false, from every state; and when `b` is true, a write stays in flight
and the process has not reached `Maintenance`, every poll reports requested
true and current false. -/
theorem process_converges_once_drained {σ : Type} (p : Process σ) (flag : σ → Bool)
    (ok : σ → Prop) (hst : OverwritingStore p.ah flag) (hrd : ReadableStore p.ah ok)
    (hok0 : ok p.world.store) (r : Request) (b : Bool)
    (hmeth : (r.Method = "PUT" ∧ b = true) ∨ (r.Method = "DELETE" ∧ b = false))
    (hok : (p.setMaintenance r).2 = none) (r1 r2 : Request) (rest : List Request) :
    (b = true → p.inFlight = 0 →
        (some { RequestedStatus := true, CurrentStatus := true }, none) ∈
          (((p.setMaintenance r).1.polls (r1 :: r2 :: rest)).2.take 2)) ∧
      (b = false →
        ((p.setMaintenance r).1.poll r1).2 =
          (some { RequestedStatus := false, CurrentStatus := false }, none)) ∧
      (b = true → 0 < p.inFlight → p.phase ≠ Phase.Maintenance →
        ∀ polls, ∀ out ∈ ((p.setMaintenance r).1.polls polls).2,
          out = (some { RequestedStatus := true, CurrentStatus := false }, none)) := by
  have he : MaintenanceModeHandler.enableOf r.Method = b := by
    rcases hmeth with ⟨h1, h2⟩ | ⟨h1, h2⟩ <;> simp [MaintenanceModeHandler.enableOf, h1, h2]
  obtain ⟨hflag, hphase, hin, hah, hok1⟩ :=
    Process.setMaintenance_on_flag p flag ok hst hrd hok0 r hok
  rw [he] at hflag
  have hst1 : OverwritingStore (p.setMaintenance r).1.ah flag := by rw [hah]; exact hst
  have hrd1 : ReadableStore (p.setMaintenance r).1.ah ok := by rw [hah]; exact hrd
  refine ⟨?_, ?_, ?_⟩
  · intro hb h0
    have h2 := Process.polls_drained flag ok (p.setMaintenance r).1 hst1 hrd1 hok1
      (by rw [hflag, hb]) (by rw [hin, h0]) r1 r2
    simp only [Process.polls, List.take_succ_cons, List.take_zero]
    rw [h2]
    simp
  · intro hb
    obtain ⟨hres, _⟩ := Process.poll_on_flag (p.setMaintenance r).1 flag ok hst1 hrd1 hok1 r1
    rw [hflag, hb] at hres
    rw [hres]
    cases (p.setMaintenance r).1.phase <;> rfl
  · intro hb hfl hph polls
    exact Process.polls_stalled flag ok polls (p.setMaintenance r).1 hst1 hrd1 hok1
      (by rw [hflag, hb]) (by rw [hin]; exact hfl) (by rw [hphase]; exact hph)

/-- Witness of the amended C8: a process in `Normal` with no write in flight
reports requested true and current true within two polls of an enable. -/
theorem process_converges_once_drained_witness :
    (some { RequestedStatus := true, CurrentStatus := true }, none) ∈
      ((((Process.start Phase.Normal 0 (Store.fresh false)).setMaintenance
        (Request.of "PUT")).1.polls
          (Request.of "GET" :: Request.of "GET" :: [Request.of "GET"])).2.take 2) :=
  (process_converges_once_drained (Process.start Phase.Normal 0 (Store.fresh false))
    Store.requestedEnabled (fun s => s.readFails = false) specActionHandler_overwriting
    specActionHandler_readable rfl
    (Request.of "PUT") true (Or.inl ⟨rfl, rfl⟩) (by decide)
    (Request.of "GET") (Request.of "GET") [Request.of "GET"]).1 rfl rfl

end Agola
